import Mathlib

/-!
Shallow embedding of the `sessions` package: request-scoped session state for
an HTTP server (file `sessions.go`).

Modelling conventions:
- Go pointers to `Session` objects are indices (`Nat`) into an explicit heap
  (`List Session`); two sessions are the same object iff their indices agree.
- Go `error` values are `Option String` (`none` = nil error, `some msg` = an
  error whose `Error()` message is `msg`).
- A Go panic (failed type assertion, nil-pointer dereference) is the `.error`
  branch of `Except String`.
- Dynamically typed `interface` values stored in `Session.Values` are the
  inductive type `GoVal`; the Go map is an association list with unique keys.
- A `Store` is an external collaborator; it is modelled as a behaviour
  (`StoreBehavior`) looked up by a store identifier (`Nat`).  The request
  context argument that the registry threads through `New` and `Save`
  unchanged is elided from the behaviour signatures.
- To make "the registry does not call the store" statable, the registry state
  carries a ghost log of `store.New` invocations, appended to exactly when the
  embedded code performs the call.
-/

/-- Dynamically typed Go value (an `interface` value): the kinds the claims
exercise are strings, integers and value slices. -/
inductive GoVal where
  | str : String → GoVal
  | int : Int → GoVal
  | slice : List GoVal → GoVal

/-- Default flashes key (constant `flashesKey` in the source). -/
def flashesKey : String := "_flash"

/-- The `Options` stores configuration for a session or session store
(cookie-attribute subset).  `MaxAge` is in seconds. -/
structure Options where
  Path : String
  Domain : String
  MaxAge : Int
  Secure : Bool
  HttpOnly : Bool
deriving DecidableEq, Repr

/-- The `Session` stores the values and optional configuration for a session.
`store` is the back-reference to the owning store (`none` = nil interface);
`Opts` embeds the Go field `Options` (renamed to avoid clashing with the
`Options` type); `Values` is the dynamically keyed user-data map. -/
structure Session where
  ID : String
  Values : List (GoVal × GoVal)
  Opts : Option Options
  IsNew : Bool
  store : Option Nat
  name : String

/-- The `NewSession` is called by session stores to create a new session
instance: empty value map, the given store and name, zero values elsewhere. -/
def NewSession (store : Option Nat) (name : String) : Session :=
  { ID := "", Values := [], Opts := none, IsNew := false, store := store, name := name }

/-- Go map read `s.Values[key]` for a string key: the claims only exercise
string-keyed reads, and Go compares interface keys by value equality, so a
stored key matches iff it is the string `key`. -/
def lookupVal : List (GoVal × GoVal) → String → Option GoVal
  | [], _ => none
  | (k, v) :: rest, key =>
    match k with
    | .str s => if s = key then some v else lookupVal rest key
    | _ => lookupVal rest key

/-- Go map `delete(s.Values, key)` for a string key. -/
def eraseVal : List (GoVal × GoVal) → String → List (GoVal × GoVal)
  | [], _ => []
  | (k, v) :: rest, key =>
    match k with
    | .str s => if s = key then eraseVal rest key else (k, v) :: eraseVal rest key
    | _ => (k, v) :: eraseVal rest key

/-- Go map write `s.Values[key] = v` for a string key (replaces any existing
binding; position in the association list is irrelevant to map semantics). -/
def insertVal (m : List (GoVal × GoVal)) (key : String) (v : GoVal) :
    List (GoVal × GoVal) :=
  eraseVal m key ++ [(GoVal.str key, v)]

/-- The `Session.Flashes` returns a slice of flash messages from the session.
The optional variadic argument selects the flash key (default `flashesKey`).
If a value is present under the key it is deleted from the map and the type
assertion `v.([]interface)` is performed: a non-slice value makes that
assertion panic, modelled as `.error`. -/
def Session.Flashes (s : Session) (vars : List String) :
    Except String (List GoVal × Session) :=
  let key := vars.headD flashesKey
  match lookupVal s.Values key with
  | none => .ok ([], s)
  | some v =>
    match v with
    | .slice l => .ok (l, { s with Values := eraseVal s.Values key })
    | _ => .error "interface conversion: interface is not a slice"

/-- The `Session.AddFlash` adds a flash message to the session: it appends
`value` to the slice read (via the same panicking type assertion) from the
flash key, starting from the empty slice when the key is absent. -/
def Session.AddFlash (s : Session) (value : GoVal) (vars : List String) :
    Except String Session :=
  let key := vars.headD flashesKey
  match lookupVal s.Values key with
  | none => .ok { s with Values := insertVal s.Values key (.slice [value]) }
  | some (.slice l) =>
    .ok { s with Values := insertVal s.Values key (.slice (l ++ [value])) }
  | some _ => .error "interface conversion: interface is not a slice"

/-- Behaviour of a store (the `Store` interface): `New` yields the session the
store constructs for a name together with its error; `Save` yields the error
of persisting a session (`none` = success).  The session returned by `New` is
a value here; the registry allocates it on the heap, modelling that each
`store.New` call yields a fresh object. -/
structure StoreBehavior where
  New : String → Session × Option String
  Save : Session → Option String

/-- The `sessionInfo` stores a session tracked by the registry: a pointer to the
session (heap index) and the recorded error. -/
structure sessionInfo where
  s : Nat
  e : Option String
deriving DecidableEq, Repr

/-- The `Registry` stores sessions used during a request: the context back-
reference (`none` = nil) and the name-to-`sessionInfo` map, plus the ghost
session heap and the ghost log of `store.New` calls `(store, name)`. -/
structure Registry where
  ctx : Option Nat
  sessions : List (String × sessionInfo)
  heap : List Session
  newCalls : List (Nat × String)

/-- Heap dereference of a session pointer. -/
def heapGet (h : List Session) (p : Nat) : Session :=
  (h.get? p).getD (NewSession none "")

/-- In-place update `session.store = store` through a session pointer. -/
def setStoreAt : List Session → Nat → Nat → List Session
  | [], _, _ => []
  | x :: xs, 0, st => { x with store := some st } :: xs
  | x :: xs, p + 1, st => x :: setStoreAt xs p st

/-- Go map read `r.sessions[name]`. -/
def lookupSession : List (String × sessionInfo) → String → Option sessionInfo
  | [], _ => none
  | (k, v) :: rest, name => if k = name then some v else lookupSession rest name

/-- Modelled from the spec: `isCookieNameValid` is called by `Registry.Get`
but is not among the provided source files.  The spec describes it as a
cookie-name-legality predicate: no control characters and no separator
characters disallowed by cookie-name (token) syntax, i.e. every character is
an HTTP token character. -/
def isTokenChar (c : Char) : Bool :=
  32 < c.toNat && c.toNat < 127 && !(("()<>@,;:\\\"/[]?=\x7b\x7d \t".data).contains c)

/-- Modelled from the spec: a name is a valid cookie name iff all of its
characters are token characters. -/
def isCookieNameValid (name : String) : Bool :=
  name.data.all isTokenChar

/-- The `Registry.Get` registers and returns a session for the given name and
session store.  Result: the returned session pointer (`none` = nil) and
error, paired with the updated registry state. -/
def Registry.Get (stores : Nat → StoreBehavior) (r : Registry) (store : Nat)
    (name : String) : (Option Nat × Option String) × Registry :=
  if isCookieNameValid name = false then
    ((none, some ("sessions: invalid character in cookie name: " ++ name)), r)
  else
    match lookupSession r.sessions name with
    | some info =>
      ((some info.s, info.e), { r with heap := setStoreAt r.heap info.s store })
    | none =>
      let res := (stores store).New name
      let sess := { res.1 with name := name, store := some store }
      ((some r.heap.length, res.2),
        { r with
          heap := r.heap ++ [sess],
          sessions := r.sessions ++ [(name, ⟨r.heap.length, res.2⟩)],
          newCalls := r.newCalls ++ [(store, name)] })

/-- The `MultiError` stores multiple errors; entries may be nil (`none`). -/
abbrev MultiError := List (Option String)

/-- The body of the loop in `Registry.Save`, over the registry map entries:
for each tracked session, a nil store back-reference records a missing-store
error; otherwise `store.Save` is called (logged in the second component as
`(store, name)`) and a failure records an error tagged with the session name.
The Go verb `%q` is modelled as plain double-quoting, which is exact for
names free of characters needing escapes (all cookie-legal names are). -/
def saveLoop (stores : Nat → StoreBehavior) (heap : List Session) :
    List (String × sessionInfo) → MultiError × List (Nat × String)
  | [] => ([], [])
  | (name, info) :: rest =>
    let session := heapGet heap info.s
    let tail := saveLoop stores heap rest
    match session.store with
    | none =>
      (some ("sessions: missing store for session \"" ++ name ++ "\"") :: tail.1,
        tail.2)
    | some st =>
      match (stores st).Save session with
      | some err =>
        (some ("sessions: error saving session \"" ++ name ++ "\" -- " ++ err) :: tail.1,
          (st, name) :: tail.2)
      | none => (tail.1, (st, name) :: tail.2)

/-- The `Registry.Save` saves all sessions registered for the current request.
It returns the collected `MultiError` when at least one error was recorded
(the Go nil-slice test `errMulti != nil`) and nil (`none`) otherwise, paired
with the ghost log of `store.Save` invocations. -/
def Registry.Save (stores : Nat → StoreBehavior) (r : Registry) :
    Option MultiError × List (Nat × String) :=
  let res := saveLoop stores r.heap r.sessions
  (if res.1 = [] then none else some res.1, res.2)

/-- Specification-side description of which `store.Save` calls `Registry.Save`
performs: one per registered session whose store back-reference is non-nil,
independently of any other entry (so a failure for one session cannot
suppress the attempt for another). -/
def savedCalls (heap : List Session) (entries : List (String × sessionInfo)) :
    List (Nat × String) :=
  entries.filterMap fun pr =>
    match (heapGet heap pr.2.s).store with
    | some st => some (st, pr.1)
    | none => none

/-- Specification-side description of the errors `Registry.Save` records:
per registered session, a missing-store error if its store is nil, the
tagged store error if `store.Save` fails, nothing otherwise — each entry
computed independently of the rest. -/
def saveErrors (stores : Nat → StoreBehavior) (heap : List Session)
    (entries : List (String × sessionInfo)) : MultiError :=
  entries.filterMap fun pr =>
    match (heapGet heap pr.2.s).store with
    | none => some (some ("sessions: missing store for session \"" ++ pr.1 ++ "\""))
    | some st =>
      match (stores st).Save (heapGet heap pr.2.s) with
      | some err =>
        some (some ("sessions: error saving session \"" ++ pr.1 ++ "\" -- " ++ err))
      | none => none

/-- The `Registry.close` puts the registry instance into the pool for reuse: the
source clears the context reference (`r.ctx = nil`) and calls
`registryPool.Put(r)`; the returned value is the object as it sits in the
pool. -/
def Registry.close (r : Registry) : Registry :=
  { r with ctx := none }

/-- The `GetRegistry` returns a registry instance for the current request.
Modelled from the spec for the context-attachment helpers `Get`/`Set`, which
are not among the provided source files: `attached` is the value currently
attached to the request context (returned as-is when present), and `pooled`
is the instance the pool hands back otherwise (fresh or recycled), which gets
the context reference set and its session map replaced by a fresh empty one
before being attached and returned. -/
def GetRegistry (ctx : Nat) (attached : Option Registry) (pooled : Registry) :
    Registry :=
  match attached with
  | some registry => registry
  | none => { pooled with ctx := some ctx, sessions := [] }

/-- The `Session.Save` delegates to `s.store.Save(ctx, s)` with no nil check:
calling the method through a nil store interface panics, modelled as
`.error` with the Go runtime message. -/
def Session.Save (stores : Nat → StoreBehavior) (s : Session) :
    Except String (Option String) :=
  match s.store with
  | none => .error "runtime error: invalid memory address or nil pointer dereference"
  | some st => .ok ((stores st).Save s)

/-- The flash sequence currently stored in a session under the key selected
by `vars` (empty when the key is absent or holds a non-slice value). -/
def currentFlashes (s : Session) (vars : List String) : List GoVal :=
  match lookupVal s.Values (vars.headD flashesKey) with
  | some (.slice l) => l
  | _ => []

/-- A store behaviour whose `New` always succeeds with a fresh empty session
and whose `Save` always succeeds; used to instantiate theorems at concrete
inputs. -/
def trivialStores : Nat → StoreBehavior :=
  fun _ => ⟨fun n => (NewSession none n, none), fun _ => none⟩

/-- The empty registry state. -/
def emptyRegistry : Registry :=
  { ctx := none, sessions := [], heap := [], newCalls := [] }

/-- A concrete session whose default flash slot holds the sequence
`["x"]`; used to instantiate theorems at concrete inputs. -/
def wFlashSession : Session :=
  { NewSession none "s" with
    Values := [(GoVal.str flashesKey, GoVal.slice [GoVal.str "x"])] }

/-- A concrete session whose default flash slot holds the plain string
`"oops"` (not a slice); used to instantiate theorems at concrete inputs. -/
def wOopsSession : Session :=
  { NewSession none "s" with Values := [(GoVal.str flashesKey, GoVal.str "oops")] }

/-- One step of the counting loop in `MultiError.Error`: skip nil entries,
latch the first message, count the rest. -/
def countStep (p : String × Nat) (e : Option String) : String × Nat :=
  match e with
  | none => p
  | some msg => (if p.2 = 0 then msg else p.1, p.2 + 1)

/-- The `MultiError.Error` formats the aggregate: the first message plus a count
of the remaining non-nil errors. -/
def MultiError.Error (m : MultiError) : String :=
  let p := m.foldl countStep ("", 0)
  match p.2 with
  | 0 => "(0 errors)"
  | 1 => p.1
  | 2 => p.1 ++ " (and 1 other error)"
  | n + 3 => p.1 ++ " (and " ++ toString (n + 2) ++ " other errors)"

/-- Transport cookie object (the fields of `fasthttp.Cookie` that `NewCookie`
sets); `expire = none` models a cookie with no expiry attribute set, and
`some t` an absolute expiry at Unix time `t` seconds. -/
structure Cookie where
  key : String
  value : String
  path : String
  domain : String
  httpOnly : Bool
  secure : Bool
  expire : Option Int
deriving DecidableEq, Repr

/-- The fixed past expiry `time.Unix(1, 0)`: Unix time 1 second. -/
def cookieExpireDelete : Int := 1

/-- The `NewCookie` returns a cookie with the options set, computing an absolute
expiry from `MaxAge`; `now` is the current Unix time in seconds. -/
def NewCookie (now : Int) (name value : String) (options : Options) : Cookie :=
  let cookie : Cookie :=
    { key := name, value := value, path := options.Path, domain := options.Domain,
      httpOnly := options.HttpOnly, secure := options.Secure, expire := none }
  if options.MaxAge > 0 then
    { cookie with expire := some (now + options.MaxAge) }
  else if options.MaxAge < 0 then
    { cookie with expire := some cookieExpireDelete }
  else
    cookie

-- Lemmas about the `MultiError.Error` counting loop.

theorem foldl_countStep_pos (m : MultiError) (s : String) (n : Nat) :
    m.foldl countStep (s, n + 1) = (s, n + 1 + (m.filterMap id).length) := by
  induction m generalizing n with
  | nil => simp
  | cons e rest ih =>
    cases e with
    | none => simpa [countStep] using ih n
    | some msg =>
      have hif : (if n + 1 = 0 then msg else s) = s := by simp
      simp only [List.foldl_cons, countStep, hif, List.filterMap_cons, id_eq]
      rw [ih (n + 1)]
      simp [Prod.ext_iff]
      omega

theorem foldl_countStep_zero (m : MultiError) :
    m.foldl countStep ("", 0) =
      ((m.filterMap id).headD "", (m.filterMap id).length) := by
  induction m with
  | nil => simp
  | cons e rest ih =>
    cases e with
    | none => simpa [countStep] using ih
    | some msg =>
      simp only [List.foldl_cons, countStep, List.filterMap_cons, id_eq, if_true,
        eq_self_iff_true]
      rw [foldl_countStep_pos rest msg 0]
      simp [Prod.ext_iff]
      omega

/-- C7: `MultiError.Error` counts its non-nil entries `n` and returns
`"(0 errors)"` when `n = 0`, the first non-nil message verbatim when `n = 1`,
that message plus `" (and 1 other error)"` when `n = 2`, and that message
plus `" (and N-1 other errors)"` when `n > 2`, for every sequence of errors
including ones containing nil entries. -/
theorem multiError_error_spec (m : MultiError) :
    MultiError.Error m =
      (if (m.filterMap id).length = 0 then "(0 errors)"
       else if (m.filterMap id).length = 1 then (m.filterMap id).headD ""
       else if (m.filterMap id).length = 2 then
         (m.filterMap id).headD "" ++ " (and 1 other error)"
       else
         (m.filterMap id).headD "" ++ " (and " ++
           toString ((m.filterMap id).length - 1) ++ " other errors)") := by
  unfold MultiError.Error
  rw [foldl_countStep_zero]
  rcases h : (m.filterMap id).length with _ | _ | _ | k <;> simp [h]

/-- C8: for every name, value and options, `NewCookie` copies path, domain,
http-only and secure verbatim onto the cookie and applies the three-way
`MaxAge` branch: positive sets expiry `now + MaxAge` seconds, negative sets
the fixed past instant `cookieExpireDelete`, zero sets no expiry at all. -/
theorem newCookie_spec (now : Int) (name value : String) (options : Options) :
    (NewCookie now name value options).path = options.Path ∧
    (NewCookie now name value options).domain = options.Domain ∧
    (NewCookie now name value options).httpOnly = options.HttpOnly ∧
    (NewCookie now name value options).secure = options.Secure ∧
    (NewCookie now name value options).expire =
      (if options.MaxAge > 0 then some (now + options.MaxAge)
       else if options.MaxAge < 0 then some cookieExpireDelete
       else none) := by
  unfold NewCookie
  split_ifs <;> simp_all

/-- C6: for every name failing the cookie-name-legality predicate,
`Registry.Get` returns a nil session and a descriptive error naming the
offending name, and leaves the entire registry state unchanged: no store call
happens and no entry is created. -/
theorem get_invalid_name (stores : Nat → StoreBehavior) (r : Registry)
    (store : Nat) (name : String) (h : isCookieNameValid name = false) :
    Registry.Get stores r store name =
      ((none, some ("sessions: invalid character in cookie name: " ++ name)), r) := by
  unfold Registry.Get
  simp [h]

/-- Witness for C6 at the invalid name `"a b"` (contains a space) on the
empty registry. -/
theorem get_invalid_name_witness :
    isCookieNameValid "a b" = false ∧
    Registry.Get (fun _ => ⟨fun n => (NewSession none n, none), fun _ => none⟩)
        { ctx := none, sessions := [], heap := [], newCalls := [] } 0 "a b" =
      ((none, some ("sessions: invalid character in cookie name: " ++ "a b")),
        { ctx := none, sessions := [], heap := [], newCalls := [] }) :=
  ⟨by decide, get_invalid_name _ _ _ _ (by decide)⟩

-- Lemmas about the registry map, the session heap and the value map.

theorem lookupSession_append (l l2 : List (String × sessionInfo)) (n : String) :
    lookupSession (l ++ l2) n =
      (match lookupSession l n with
       | some v => some v
       | none => lookupSession l2 n) := by
  induction l with
  | nil => simp [lookupSession]
  | cons p rest ih =>
    obtain ⟨k, v⟩ := p
    by_cases h : k = n <;> simp [lookupSession, h, ih]

theorem lookupSession_mem {l : List (String × sessionInfo)} {n : String}
    {info : sessionInfo} (h : lookupSession l n = some info) : (n, info) ∈ l := by
  induction l with
  | nil => simp [lookupSession] at h
  | cons p rest ih =>
    obtain ⟨k, v⟩ := p
    by_cases hk : k = n
    · subst hk
      simp [lookupSession] at h
      subst h
      exact List.mem_cons_self _ _
    · simp [lookupSession, hk] at h
      exact List.mem_cons_of_mem _ (ih h)

theorem heapGet_concat (h : List Session) (x : Session) :
    heapGet (h ++ [x]) h.length = x := by
  simp [heapGet, List.get?_eq_getElem?, List.getElem?_concat_length]

theorem heapGet_setStoreAt (h : List Session) (p st : Nat) (hp : p < h.length) :
    heapGet (setStoreAt h p st) p = { heapGet h p with store := some st } := by
  induction h generalizing p with
  | nil => simp at hp
  | cons x xs ih =>
    cases p with
    | zero => simp [setStoreAt, heapGet]
    | succ q =>
      have := ih q (by simpa using hp)
      simpa [setStoreAt, heapGet] using this

theorem lookupVal_append (l l2 : List (GoVal × GoVal)) (key : String) :
    lookupVal (l ++ l2) key =
      (match lookupVal l key with
       | some v => some v
       | none => lookupVal l2 key) := by
  induction l with
  | nil => simp [lookupVal]
  | cons p rest ih =>
    obtain ⟨k, v⟩ := p
    cases k with
    | str s => by_cases h : s = key <;> simp [lookupVal, h, ih]
    | int i => simp [lookupVal, ih]
    | slice l3 => simp [lookupVal, ih]

theorem lookupVal_eraseVal_self (m : List (GoVal × GoVal)) (key : String) :
    lookupVal (eraseVal m key) key = none := by
  induction m with
  | nil => simp [eraseVal, lookupVal]
  | cons p rest ih =>
    obtain ⟨k, v⟩ := p
    cases k with
    | str s => by_cases h : s = key <;> simp [eraseVal, lookupVal, h, ih]
    | int i => simp [eraseVal, lookupVal, ih]
    | slice l3 => simp [eraseVal, lookupVal, ih]

theorem lookupVal_insertVal_self (m : List (GoVal × GoVal)) (key : String)
    (v : GoVal) :
    lookupVal (insertVal m key v) key = some v := by
  simp [insertVal, lookupVal_append, lookupVal_eraseVal_self, lookupVal]

theorem saveLoop_spec (stores : Nat → StoreBehavior) (heap : List Session)
    (entries : List (String × sessionInfo)) :
    saveLoop stores heap entries =
      (saveErrors stores heap entries, savedCalls heap entries) := by
  induction entries with
  | nil => rfl
  | cons p rest ih =>
    obtain ⟨name, info⟩ := p
    cases hst : (heapGet heap info.s).store with
    | none => simp [saveLoop, saveErrors, savedCalls, hst, ih]
    | some st =>
      cases hsv : (stores st).Save (heapGet heap info.s) with
      | none => simp [saveLoop, saveErrors, savedCalls, hst, hsv, ih]
      | some err => simp [saveLoop, saveErrors, savedCalls, hst, hsv, ih]

/-- C1: for a valid fresh name, the first `Registry.Get` records the pair
returned by `store.New` (logging exactly one `store.New` call); a subsequent
`Get` for the same name returns exactly the recorded session pointer and the
recorded error (even a non-nil one) without calling the store again; and a
`Get` for a second, distinct valid name returns a distinct session object. -/
theorem get_caches_store_result (stores : Nat → StoreBehavior)
    (st1 st1b st2 : Nat) (n1 n2 : String) (r0 : Registry)
    (h1 : isCookieNameValid n1 = true) (h2 : isCookieNameValid n2 = true)
    (hne : n1 ≠ n2)
    (hf1 : lookupSession r0.sessions n1 = none)
    (hf2 : lookupSession r0.sessions n2 = none) :
    (Registry.Get stores r0 st1 n1).1 =
        (some r0.heap.length, ((stores st1).New n1).2) ∧
    (Registry.Get stores r0 st1 n1).2.newCalls = r0.newCalls ++ [(st1, n1)] ∧
    ((Registry.Get stores (Registry.Get stores r0 st1 n1).2 st1b n1).1 =
        (Registry.Get stores r0 st1 n1).1 ∧
      (Registry.Get stores (Registry.Get stores r0 st1 n1).2 st1b n1).2.newCalls =
        (Registry.Get stores r0 st1 n1).2.newCalls) ∧
    (Registry.Get stores (Registry.Get stores r0 st1 n1).2 st2 n2).1.1 ≠
      (Registry.Get stores r0 st1 n1).1.1 := by
  refine ⟨?_, ?_, ⟨?_, ?_⟩, ?_⟩ <;>
    simp [Registry.Get, h1, h2, hne, hf1, hf2, lookupSession_append, lookupSession]

/-- Witness for C1: two fresh names `"a"` and `"b"` on the empty registry
with a trivial always-succeeding store family. -/
theorem get_caches_store_result_witness :
    isCookieNameValid "a" = true ∧ isCookieNameValid "b" = true ∧ "a" ≠ "b" ∧
    ((Registry.Get trivialStores emptyRegistry 0 "a").1 =
        (some emptyRegistry.heap.length, ((trivialStores 0).New "a").2) ∧
      (Registry.Get trivialStores emptyRegistry 0 "a").2.newCalls =
        emptyRegistry.newCalls ++ [(0, "a")] ∧
      ((Registry.Get trivialStores
            (Registry.Get trivialStores emptyRegistry 0 "a").2 1 "a").1 =
          (Registry.Get trivialStores emptyRegistry 0 "a").1 ∧
        (Registry.Get trivialStores
            (Registry.Get trivialStores emptyRegistry 0 "a").2 1 "a").2.newCalls =
          (Registry.Get trivialStores emptyRegistry 0 "a").2.newCalls) ∧
      (Registry.Get trivialStores
          (Registry.Get trivialStores emptyRegistry 0 "a").2 2 "b").1.1 ≠
        (Registry.Get trivialStores emptyRegistry 0 "a").1.1) :=
  ⟨by decide, by decide, by decide,
    get_caches_store_result trivialStores 0 1 2 "a" "b" emptyRegistry
      (by decide) (by decide) (by decide) rfl rfl⟩

/-- C4: for every valid name, `Registry.Get` sets the returned session's
store back-reference to the store argument on both the cache-hit and the
cache-miss branch; and for an already-registered name it does so (rebinding
to the possibly different new store) without calling `store.New`. -/
theorem get_sets_store_backref (stores : Nat → StoreBehavior) (st : Nat)
    (name : String) (r : Registry)
    (hv : isCookieNameValid name = true)
    (hwf : ∀ pr ∈ r.sessions, pr.2.s < r.heap.length) :
    (∀ p, (Registry.Get stores r st name).1.1 = some p →
      (heapGet (Registry.Get stores r st name).2.heap p).store = some st) ∧
    (lookupSession r.sessions name ≠ none →
      (Registry.Get stores r st name).2.newCalls = r.newCalls) := by
  cases hlk : lookupSession r.sessions name with
  | none =>
    constructor
    · intro p hp
      simp [Registry.Get, hv, hlk] at hp ⊢
      subst hp
      rw [heapGet_concat]
    · intro hc
      exact absurd rfl hc
  | some info =>
    have hmem := lookupSession_mem hlk
    have hlt := hwf _ hmem
    constructor
    · intro p hp
      simp [Registry.Get, hv, hlk] at hp ⊢
      subst hp
      rw [heapGet_setStoreAt r.heap info.s st hlt]
    · intro _
      simp [Registry.Get, hv, hlk]

/-- Witness for C4: a registry with name `"a"` already registered at heap
slot 0; a repeated `Get` with store 5 rebinds the back-reference. -/
theorem get_sets_store_backref_witness :
    isCookieNameValid "a" = true ∧
    (∀ pr ∈ [("a", (⟨0, none⟩ : sessionInfo))], pr.2.s < [NewSession none "a"].length) ∧
    ((∀ p, (Registry.Get trivialStores
          ⟨none, [("a", ⟨0, none⟩)], [NewSession none "a"], []⟩ 5 "a").1.1 = some p →
        (heapGet (Registry.Get trivialStores
            ⟨none, [("a", ⟨0, none⟩)], [NewSession none "a"], []⟩ 5 "a").2.heap p).store =
          some 5) ∧
      (lookupSession [("a", ⟨0, none⟩)] "a" ≠ none →
        (Registry.Get trivialStores
            ⟨none, [("a", ⟨0, none⟩)], [NewSession none "a"], []⟩ 5 "a").2.newCalls = [])) :=
  ⟨by decide, by decide,
    get_sets_store_backref trivialStores 5 "a"
      ⟨none, [("a", ⟨0, none⟩)], [NewSession none "a"], []⟩ (by decide) (by decide)⟩

/-- C2: `Registry.Save` performs a `store.Save` call for exactly the
registered sessions whose store back-reference is non-nil — each contribution
computed independently of the others, so one failure never prevents another
attempt — records a missing-store error naming each session with a nil store
and a tagged error for each failing `store.Save`, and returns nil when no
error was recorded and the `MultiError` of all recorded errors otherwise. -/
theorem registry_save_spec (stores : Nat → StoreBehavior) (r : Registry) :
    (Registry.Save stores r).2 = savedCalls r.heap r.sessions ∧
    (Registry.Save stores r).1 =
      (if saveErrors stores r.heap r.sessions = [] then none
       else some (saveErrors stores r.heap r.sessions)) := by
  unfold Registry.Save
  rw [saveLoop_spec]
  exact ⟨rfl, rfl⟩

/-- Counterexample for C3: `Registry.close` does not clear the session map
before the object is returned to the pool — a registry holding one entry
still holds it at the moment it is put back. -/
theorem close_keeps_sessions_counterexample :
    ¬ ((Registry.close
        { ctx := some 7, sessions := [("a", ⟨0, none⟩)], heap := [],
          newCalls := [] }).sessions = []) := by
  decide

/-- C3 (amended): `Registry.close` clears only the context reference before
returning the registry object to the pool; the session map is left in place
there, and is instead replaced by a fresh empty map (with a fresh context
reference) by `GetRegistry` when the pooled instance is reacquired, so a
recycled registry carries no prior session entries at the moment of reuse. -/
theorem close_amended (r : Registry) (c : Nat) :
    (Registry.close r).ctx = none ∧
    (Registry.close r).sessions = r.sessions ∧
    (GetRegistry c none (Registry.close r)).sessions = [] ∧
    (GetRegistry c none (Registry.close r)).ctx = some c :=
  ⟨rfl, rfl, rfl, rfl⟩

/-- C5: for a session whose flash slot (for the key selected by `vars`) is
absent or holds a value slice, `AddFlash` appends the value to the existing
flash sequence (creating it when absent), preserving insertion order, and
`Flashes` returns the whole flash sequence in insertion order while removing
the key from the value map entirely, so an immediately following `Flashes`
call returns the empty sequence. -/
theorem flashes_spec (s : Session) (vars : List String) (v : GoVal)
    (h : lookupVal s.Values (vars.headD flashesKey) = none ∨
      ∃ l, lookupVal s.Values (vars.headD flashesKey) = some (GoVal.slice l)) :
    (Session.AddFlash s v vars =
        .ok { s with Values := (insertVal s.Values (vars.headD flashesKey)
          (GoVal.slice (currentFlashes s vars ++ [v]))) } ∧
      lookupVal (insertVal s.Values (vars.headD flashesKey)
          (GoVal.slice (currentFlashes s vars ++ [v]))) (vars.headD flashesKey) =
        some (GoVal.slice (currentFlashes s vars ++ [v]))) ∧
    (∃ s2, Session.Flashes s vars = .ok (currentFlashes s vars, s2) ∧
      lookupVal s2.Values (vars.headD flashesKey) = none ∧
      Session.Flashes s2 vars = .ok ([], s2)) := by
  rcases h with h | ⟨l, h⟩
  · rw [List.headD_eq_head?] at h
    refine ⟨⟨?_, lookupVal_insertVal_self _ _ _⟩, ⟨s, ?_, ?_, ?_⟩⟩ <;>
      simp [Session.AddFlash, Session.Flashes, currentFlashes, h]
  · rw [List.headD_eq_head?] at h
    refine ⟨⟨?_, lookupVal_insertVal_self _ _ _⟩,
      ⟨{ s with Values := eraseVal s.Values (vars.headD flashesKey) }, ?_, ?_, ?_⟩⟩ <;>
      simp [Session.AddFlash, Session.Flashes, currentFlashes, h,
        lookupVal_eraseVal_self]


/-- Witness for C5: the default flash key on a session already holding the
flash sequence `["x"]`; adding `"y"` yields the sequence `["x", "y"]` and
popping returns `["x"]` and removes the key, so the next pop is empty. -/
theorem flashes_spec_witness :
    (lookupVal wFlashSession.Values (([] : List String).headD flashesKey) = none ∨
      ∃ l, lookupVal wFlashSession.Values (([] : List String).headD flashesKey) =
        some (GoVal.slice l)) ∧
    ((Session.AddFlash wFlashSession (GoVal.str "y") [] =
        .ok { wFlashSession with
          Values := (insertVal wFlashSession.Values (([] : List String).headD flashesKey)
            (GoVal.slice (currentFlashes wFlashSession [] ++ [GoVal.str "y"]))) } ∧
      lookupVal (insertVal wFlashSession.Values (([] : List String).headD flashesKey)
          (GoVal.slice (currentFlashes wFlashSession [] ++ [GoVal.str "y"])))
          (([] : List String).headD flashesKey) =
        some (GoVal.slice (currentFlashes wFlashSession [] ++ [GoVal.str "y"]))) ∧
    (∃ s2, Session.Flashes wFlashSession [] = .ok (currentFlashes wFlashSession [], s2) ∧
      lookupVal s2.Values (([] : List String).headD flashesKey) = none ∧
      Session.Flashes s2 [] = .ok ([], s2))) :=
  ⟨Or.inr ⟨[GoVal.str "x"], rfl⟩,
    flashes_spec wFlashSession [] (GoVal.str "y") (Or.inr ⟨[GoVal.str "x"], rfl⟩)⟩

/-- C9: flash operations are only safe when the flash slot holds a value
slice: if application code stored a value of any other kind under the flash
key, both `Flashes` and `AddFlash` fault on the failed type assertion
instead of returning an error value or an empty result. -/
theorem flash_type_assertion_panics (s : Session) (vars : List String)
    (v w : GoVal)
    (hv : lookupVal s.Values (vars.headD flashesKey) = some v)
    (hns : ∀ l, v ≠ GoVal.slice l) :
    Session.Flashes s vars = .error "interface conversion: interface is not a slice" ∧
    Session.AddFlash s w vars = .error "interface conversion: interface is not a slice" := by
  cases v with
  | str t => exact ⟨by simp only [Session.Flashes, hv], by simp only [Session.AddFlash, hv]⟩
  | int i => exact ⟨by simp only [Session.Flashes, hv], by simp only [Session.AddFlash, hv]⟩
  | slice l => exact absurd rfl (hns l)

/-- Witness for C9: a session whose default flash slot holds the plain
string `"oops"` rather than a slice. -/
theorem flash_type_assertion_panics_witness :
    lookupVal wOopsSession.Values (([] : List String).headD flashesKey) =
      some (GoVal.str "oops") ∧
    (Session.Flashes wOopsSession [] =
      .error "interface conversion: interface is not a slice" ∧
    Session.AddFlash wOopsSession (GoVal.int 1) [] =
      .error "interface conversion: interface is not a slice") :=
  ⟨rfl,
    flash_type_assertion_panics wOopsSession [] (GoVal.str "oops") (GoVal.int 1) rfl
      (fun _ hl => GoVal.noConfusion hl)⟩

/-- C10: `Session.Save` delegates with no nil check, so a session whose
store back-reference is nil (such as one built by `NewSession` with a nil
store) faults with a nil dereference; by contrast `Registry.Save` handles
the same session gracefully, recording a per-session missing-store error. -/
theorem session_save_nil_store (stores : Nat → StoreBehavior) (s : Session)
    (name : String) (h : s.store = none) :
    Session.Save stores s =
      .error "runtime error: invalid memory address or nil pointer dereference" ∧
    (Registry.Save stores
        { ctx := none, sessions := [(name, ⟨0, none⟩)], heap := [s],
          newCalls := [] }).1 =
      some [some ("sessions: missing store for session \"" ++ name ++ "\"")] := by
  constructor
  · simp [Session.Save, h]
  · simp [Registry.Save, saveLoop, heapGet, h]

/-- Witness for C10: the session `NewSession none "x"`, whose store
back-reference is nil. -/
theorem session_save_nil_store_witness :
    (NewSession none "x").store = none ∧
    (Session.Save trivialStores (NewSession none "x") =
      .error "runtime error: invalid memory address or nil pointer dereference" ∧
    (Registry.Save trivialStores
        { ctx := none, sessions := [("x", ⟨0, none⟩)], heap := [NewSession none "x"],
          newCalls := [] }).1 =
      some [some ("sessions: missing store for session \"" ++ "x" ++ "\"")]) :=
  ⟨rfl, session_save_nil_store trivialStores (NewSession none "x") "x" rfl⟩
